import Mathlib

/-!
Shallow embedding of `src/inventory_agent.py` (Inventory-Agent repository).

The Python program keeps an inventory as a dict mapping a lower-cased key to
an item dict `{"name": ..., "quantity": ..., "price": ...}`.  We model the
dict as an association list with unique keys (Python dicts update an existing
key in place and append new keys at the end; both behaviours are reproduced
by `setItem`).  An item's `price` field is modelled as `Option ℚ` because a
persisted entry may lack the `"price"` key, in which case `check_stock` and
`list_items` fall back to `0.0` via `dict.get` (`priceOr0` below).

Mutating operations in Python call `save_inventory` (whole-file overwrite);
we record whether a save happened in the `saved` field of `OpResult`.
-/

/-- One inventory entry: the Python dict `{"name", "quantity", "price"}`.
`price = none` models a persisted entry that lacks the `"price"` key. -/
structure Item where
  name : String
  quantity : Int
  price : Option ℚ
deriving Repr, DecidableEq

/-- The in-memory mapping: Python dict from normalized key to entry. -/
abbrev Inventory := List (String × Item)

/-- Python `str.lower()` (ASCII case folding suffices for this development). -/
def pyLower (s : String) : String := ⟨s.data.map Char.toLower⟩

/-- Python `key in inventory` / `inventory[key]`: first (unique) binding. -/
def lookup : Inventory → String → Option Item
  | [], _ => none
  | (k0, it0) :: rest, k => if k0 = k then some it0 else lookup rest k

/-- Python `inventory[key] = item`: replace the existing binding in place,
or append a fresh binding at the end (dict insertion order). -/
def setItem : Inventory → String → Item → Inventory
  | [], k, it => [(k, it)]
  | (k0, it0) :: rest, k, it =>
      if k0 = k then (k0, it) :: rest else (k0, it0) :: setItem rest k it

/-- Python `inventory.pop(key)`: drop the binding for `key`. -/
def popKey : Inventory → String → Inventory
  | [], _ => []
  | (k0, it0) :: rest, k => if k0 = k then rest else (k0, it0) :: popKey rest k

/-- The Python dict invariant: keys are unique. -/
def keysNodup (inv : Inventory) : Prop := (inv.map Prod.fst).Nodup

instance (inv : Inventory) : Decidable (keysNodup inv) := by
  unfold keysNodup; infer_instance

/-- Python `it.get("price", 0.0)` from `check_stock` and `list_items`. -/
def priceOr0 (it : Item) : ℚ := it.price.getD 0

/-- Result of a mutating operation: the new mapping, the returned message,
and whether `save_inventory` was called. -/
structure OpResult where
  inv : Inventory
  msg : String
  saved : Bool
deriving Repr, DecidableEq

/-- Message of `add_item` (line 29). -/
def addedMsg (qty : Int) (name : String) (newQty : Int) : String :=
  "Added " ++ toString qty ++ " x " ++ name ++ ". New qty: " ++ toString newQty

/-- Not-found message of `remove_item` (line 34). -/
def removeNotFoundMsg (name : String) : String :=
  "Item \x27" ++ name ++ "\x27 not found in inventory."

/-- Complete-removal message of `remove_item` (line 38). -/
def removedCompletelyMsg (name : String) (qty : Int) : String :=
  "Removed item \x27" ++ name ++ "\x27 completely (requested " ++ toString qty ++ ")."

/-- Partial-removal message of `remove_item` (line 41). -/
def removedMsg (qty : Int) (name : String) (remaining : Int) : String :=
  "Removed " ++ toString qty ++ " x " ++ name ++ ". Remaining qty: " ++ toString remaining

/-- Not-found message of `check_stock` (line 46). -/
def checkNotFoundMsg (name : String) : String :=
  "Item \x27" ++ name ++ "\x27 not found."

/-- Formatted line of `check_stock` (line 48). -/
def stockMsg (name : String) (qty : Int) (price : ℚ) : String :=
  name ++ ": quantity=" ++ toString qty ++ ", price=" ++ toString price

/-- Empty-inventory sentinel of `list_items` (line 52). -/
def emptyInvMsg : String := "Inventory is empty."

/-- Per-item line of `list_items` (line 53). -/
def itemLine (it : Item) : String :=
  it.name ++ " — qty: " ++ toString it.quantity ++ " — price: " ++ toString (priceOr0 it)

/-- Source `add_item(inventory, name, qty, price=0.0)` (lines 22–29): normalize the
name, increment the quantity of an existing entry (price and stored name kept)
or insert a fresh entry, save, and report the new total. -/
def add_item (inv : Inventory) (name : String) (qty : Int) (price : ℚ := 0) : OpResult :=
  let key := pyLower name
  match lookup inv key with
  | some it =>
      let it2 : Item := { it with quantity := it.quantity + qty }
      { inv := setItem inv key it2, msg := addedMsg qty name it2.quantity, saved := true }
  | none =>
      let it2 : Item := { name := name, quantity := qty, price := some price }
      { inv := setItem inv key it2, msg := addedMsg qty name qty, saved := true }

/-- Source `remove_item(inventory, name, qty)` (lines 31–41): absent key is a no-op
with a not-found message; `qty >= quantity` deletes the entry entirely;
otherwise the quantity is decremented.  Saves only when a change occurs. -/
def remove_item (inv : Inventory) (name : String) (qty : Int) : OpResult :=
  let key := pyLower name
  match lookup inv key with
  | none => { inv := inv, msg := removeNotFoundMsg name, saved := false }
  | some it =>
      if it.quantity ≤ qty then
        { inv := popKey inv key, msg := removedCompletelyMsg name qty, saved := true }
      else
        let it2 : Item := { it with quantity := it.quantity - qty }
        { inv := setItem inv key it2, msg := removedMsg qty name it2.quantity, saved := true }

/-- Source `check_stock(inventory, name)` (lines 43–48): read-only. -/
def check_stock (inv : Inventory) (name : String) : String :=
  let key := pyLower name
  match lookup inv key with
  | none => checkNotFoundMsg name
  | some it => stockMsg it.name it.quantity (priceOr0 it)

/-- Source `list_items(inventory)` (lines 50–54): read-only; sentinel when empty,
else one line per entry joined with newlines. -/
def list_items (inv : Inventory) : String :=
  if inv.isEmpty then emptyInvMsg
  else String.intercalate "\n" (inv.map fun kv => itemLine kv.2)

/-- Iterated `add_item`, used to state the accumulation property (C1). -/
def addAll (inv : Inventory) (calls : List (String × Int × ℚ)) : Inventory :=
  calls.foldl (fun acc c => (add_item acc c.1 c.2.1 c.2.2).inv) inv

/-- Sum of the quantities of a call sequence. -/
def sumQty (calls : List (String × Int × ℚ)) : Int :=
  (calls.map fun c => c.2.1).sum

/-! ### Command interpreter (`handle_local_text_command`, lines 114–137) -/

/-- Worker for `tokens`: split a character list at whitespace, dropping
empty pieces, as Python `str.split()` does. -/
def splitWsAux : List Char → List Char → List String
  | [], acc => if acc.isEmpty then [] else [⟨acc.reverse⟩]
  | c :: cs, acc =>
      if c.isWhitespace then
        if acc.isEmpty then splitWsAux cs []
        else (⟨acc.reverse⟩ : String) :: splitWsAux cs []
      else splitWsAux cs (c :: acc)

/-- Python `text.split()`: whitespace-separated tokens, no empties.  The
source also calls `.strip()` first, which is redundant for tokenization. -/
def tokens (s : String) : List String := splitWsAux s.data []

/-- Value of an all-digit character list, `none` when empty or non-digit. -/
def digitsVal? (cs : List Char) : Option Nat :=
  if cs.isEmpty then none
  else if cs.all Char.isDigit then
    some (cs.foldl (fun n c => n * 10 + (c.toNat - 48)) 0)
  else none

/-- Python `int(token)` on a whitespace-free token: optional sign followed
by at least one digit, else a `ValueError` (`none`). -/
def pyParseInt (s : String) : Option Int :=
  match s.data with
  | [] => none
  | c :: rest =>
      if c = '-' then (digitsVal? rest).map fun n => -(n : Int)
      else if c = '+' then (digitsVal? rest).map fun n => (n : Int)
      else (digitsVal? (c :: rest)).map fun n => (n : Int)

/-- Parse-error message of the add branch (line 123). -/
def cantParseAddMsg : String := "Can\x27t parse quantity. Usage: add <qty> <item name>"

/-- Parse-error message of the remove branch (line 130). -/
def cantParseRemoveMsg : String := "Can\x27t parse quantity. Usage: remove <qty> <item name>"

/-- Unrecognized-command message (line 137). -/
def unrecognizedMsg : String := "I didn\x27t understand. Try: add, remove, check, list"

/-- Source `handle_local_text_command(inventory, text)` (lines 114–137): lower-case
and tokenize the line, then dispatch on the first token.  `parts[0]` on an
empty token list raises an `IndexError` in Python, modelled as `none`; every
other outcome is `some` of the mapping, the printed message, and whether a
save happened.  `len(parts) >= 3` becomes `2 ≤ rest.length` since
`parts = p0 :: rest`. -/
def handle_local_text_command (inv : Inventory) (text : String) : Option OpResult :=
  match tokens (pyLower text) with
  | [] => none
  | p0 :: rest =>
      if (p0 = "add" ∨ p0 = "insert") ∧ 2 ≤ rest.length then
        match pyParseInt (rest.headD "") with
        | some qty => some (add_item inv (String.intercalate " " rest.tail) qty)
        | none => some { inv := inv, msg := cantParseAddMsg, saved := false }
      else if (p0 = "remove" ∨ p0 = "delete") ∧ 2 ≤ rest.length then
        match pyParseInt (rest.headD "") with
        | some qty => some (remove_item inv (String.intercalate " " rest.tail) qty)
        | none => some { inv := inv, msg := cantParseRemoveMsg, saved := false }
      else if (p0 = "check" ∨ p0 = "stock") ∧ 1 ≤ rest.length then
        some { inv := inv, msg := check_stock inv (String.intercalate " " rest), saved := false }
      else if p0 = "list" ∨ p0 = "show" then
        some { inv := inv, msg := list_items inv, saved := false }
      else
        some { inv := inv, msg := unrecognizedMsg, saved := false }

/-! ### Delegated (SDK) mode (`run_with_sdk`, lines 59–109)

The session state visible to the tool adapters is the pair of the mapping
captured by the closures (`inventory = load_inventory()` at line 68, run
once at construction) and the current contents of the persisted file.
`save_inventory` overwrites the file with the closure's mapping. -/

structure SdkWorld where
  mem : Inventory
  file : Inventory
deriving Repr, DecidableEq

/-- Construction (line 68): the closures capture one fresh load. -/
def mkSdkWorld (file : Inventory) : SdkWorld := ⟨file, file⟩

/-- Adapter `sdk_add_item` (lines 70–71): runs on the captured mapping; the save
inside `add_item` overwrites the file with it. -/
def sdk_add_item (w : SdkWorld) (name : String) (qty : Int) (price : ℚ) :
    SdkWorld × String :=
  let r := add_item w.mem name qty price
  (⟨r.inv, r.inv⟩, r.msg)

/-- Adapter `sdk_remove_item` (lines 73–74): runs on the captured mapping; the file
is overwritten only when `remove_item` saves. -/
def sdk_remove_item (w : SdkWorld) (name : String) (qty : Int) : SdkWorld × String :=
  let r := remove_item w.mem name qty
  (⟨r.inv, if r.saved then r.inv else w.file⟩, r.msg)

/-- Adapter `sdk_check_stock` (lines 76–77): reads the captured mapping. -/
def sdk_check_stock (w : SdkWorld) (name : String) : String :=
  check_stock w.mem name

/-- Adapter `sdk_list_items` (lines 79–80): reads the captured mapping. -/
def sdk_list_items (w : SdkWorld) : String :=
  list_items w.mem

/-- Modelled from the spec (§4.4): the adapter behaviour the spec describes
for `check_stock`, loading the Inventory fresh from the Store at the moment
of the invocation. -/
def sdk_check_stock_freshSpec (w : SdkWorld) (name : String) : String :=
  check_stock w.file name

/-- Per-request local fallback (line 109): on an agent runtime error the
line is re-interpreted locally against a fresh `load_inventory()`, which
reads the file, not the closures' mapping; a save updates the file only. -/
def sdkRuntimeFallback (w : SdkWorld) (text : String) : SdkWorld × Option String :=
  match handle_local_text_command w.file text with
  | some r => (⟨w.mem, if r.saved then r.inv else w.file⟩, some r.msg)
  | none => (w, none)

/-- Outcome of `from openai.agents import Agent, Tool` (line 61). -/
inductive SdkImport
  | ok
  | fail
deriving Repr, DecidableEq

/-- Outcome of the `Agent(...)` constructor call (lines 89–93). -/
inductive AgentCtor
  | ok
  | fail
deriving Repr, DecidableEq

/-- Where the session ends up after `run_with_sdk`'s startup. -/
inductive SessionMode
  | localFallback
  | sdkActive
deriving Repr, DecidableEq

/-- Startup control flow of `run_with_sdk` (lines 59–95): only the import is
wrapped in `try/except` (lines 60–66, falling back to `run_local_cli`); the
`Agent(...)` construction at lines 89–93 runs outside any handler, so its
exception escapes `run_with_sdk` — modelled as `Except.error` (fatal). -/
def run_with_sdk_startup (imp : SdkImport) (ctor : AgentCtor) :
    Except String SessionMode :=
  match imp with
  | .fail => Except.ok SessionMode.localFallback
  | .ok =>
      match ctor with
      | .fail => Except.error "Agent construction raised: unhandled"
      | .ok => Except.ok SessionMode.sdkActive

/-- The spec's data-model invariant (§3): every entry present in the
mapping has a non-negative quantity. -/
def nonnegInv (inv : Inventory) : Prop := ∀ kv ∈ inv, 0 ≤ kv.2.quantity

instance (inv : Inventory) : Decidable (nonnegInv inv) := by
  unfold nonnegInv
  infer_instance

/-! ### Basic lemmas about the association-list dict model -/

theorem lookup_setItem_self (inv : Inventory) (k : String) (it : Item) :
    lookup (setItem inv k it) k = some it := by
  induction inv with
  | nil => simp [setItem, lookup]
  | cons kv rest ih =>
      obtain ⟨k0, it0⟩ := kv
      by_cases h : k0 = k
      · simp [setItem, lookup, h]
      · simp [setItem, lookup, h, ih]

theorem lookup_eq_none_of_not_mem_keys (inv : Inventory) (k : String)
    (h : k ∉ inv.map Prod.fst) : lookup inv k = none := by
  induction inv with
  | nil => rfl
  | cons kv rest ih =>
      obtain ⟨k0, it0⟩ := kv
      simp only [List.map_cons, List.mem_cons] at h
      push_neg at h
      simp [lookup, Ne.symm h.1, ih h.2]

theorem lookup_popKey_self (inv : Inventory) (k : String) (h : keysNodup inv) :
    lookup (popKey inv k) k = none := by
  induction inv with
  | nil => rfl
  | cons kv rest ih =>
      obtain ⟨k0, it0⟩ := kv
      unfold keysNodup at h
      simp only [List.map_cons, List.nodup_cons] at h
      by_cases hk : k0 = k
      · subst hk
        simp only [popKey, if_pos rfl]
        exact lookup_eq_none_of_not_mem_keys rest k0 h.1
      · simp [popKey, hk, lookup, ih h.2]

theorem lookup_mem (inv : Inventory) (k : String) (it : Item)
    (h : lookup inv k = some it) : (k, it) ∈ inv := by
  induction inv with
  | nil => simp [lookup] at h
  | cons kv rest ih =>
      obtain ⟨k0, it0⟩ := kv
      by_cases hk : k0 = k
      · simp only [lookup, if_pos hk] at h
        injection h with h2
        rw [← hk, ← h2]
        exact List.mem_cons_self _ _
      · simp only [lookup, if_neg hk] at h
        exact List.mem_cons_of_mem _ (ih h)

theorem mem_setItem (inv : Inventory) (k : String) (it : Item) (kv : String × Item)
    (h : kv ∈ setItem inv k it) : kv = (k, it) ∨ kv ∈ inv := by
  induction inv with
  | nil =>
      simp only [setItem, List.mem_singleton] at h
      exact Or.inl h
  | cons kv0 rest ih =>
      obtain ⟨k0, it0⟩ := kv0
      by_cases hk : k0 = k
      · simp only [setItem, if_pos hk, List.mem_cons] at h
        rcases h with h | h
        · rw [h, hk]
          exact Or.inl rfl
        · exact Or.inr (List.mem_cons_of_mem _ h)
      · simp only [setItem, if_neg hk, List.mem_cons] at h
        rcases h with h | h
        · rw [h]
          exact Or.inr (List.mem_cons_self _ _)
        · rcases ih h with h2 | h2
          · exact Or.inl h2
          · exact Or.inr (List.mem_cons_of_mem _ h2)

theorem mem_popKey (inv : Inventory) (k : String) (kv : String × Item)
    (h : kv ∈ popKey inv k) : kv ∈ inv := by
  induction inv with
  | nil => simp [popKey] at h
  | cons kv0 rest ih =>
      obtain ⟨k0, it0⟩ := kv0
      by_cases hk : k0 = k
      · simp only [popKey, if_pos hk] at h
        exact List.mem_cons_of_mem _ h
      · simp only [popKey, if_neg hk, List.mem_cons] at h
        rcases h with h | h
        · rw [h]
          exact List.mem_cons_self _ _
        · exact List.mem_cons_of_mem _ (ih h)

theorem lookup_ne_nil (inv : Inventory) (k : String) (it : Item)
    (h : lookup inv k = some it) : inv ≠ [] := by
  intro hnil
  subst hnil
  simp [lookup] at h

theorem addAll_lookup_existing (calls : List (String × Int × ℚ)) (inv : Inventory)
    (k : String) (it : Item)
    (hk : ∀ c ∈ calls, pyLower c.1 = k) (h : lookup inv k = some it) :
    lookup (addAll inv calls) k
      = some { it with quantity := it.quantity + sumQty calls } := by
  induction calls generalizing inv it with
  | nil =>
      obtain ⟨n, q, p⟩ := it
      simpa [addAll, sumQty] using h
  | cons c cs ih =>
      obtain ⟨name, qty, price⟩ := c
      obtain ⟨n, q, p⟩ := it
      have hkey : pyLower name = k := hk _ (List.mem_cons_self _ _)
      have hstep : (add_item inv name qty price).inv
          = setItem inv k ⟨n, q + qty, p⟩ := by
        simp [add_item, hkey, h]
      have hlook : lookup (add_item inv name qty price).inv k = some ⟨n, q + qty, p⟩ := by
        rw [hstep]
        exact lookup_setItem_self _ _ _
      have hrec := ih (add_item inv name qty price).inv ⟨n, q + qty, p⟩
        (fun c hc => hk c (List.mem_cons_of_mem _ hc)) hlook
      have hfold : addAll inv ((name, qty, price) :: cs)
          = addAll (add_item inv name qty price).inv cs := by
        simp [addAll]
      rw [hfold, hrec]
      simp [sumQty, add_assoc]

/-- C1: a sequence of `add_item` calls that share one name up to casing,
starting from an inventory where the lower-cased key is absent, leaves the
key mapped to an entry whose quantity is the sum of all added quantities,
whose stored display name is the first call's name, and whose price is the
first call's price (later calls never change price or name). -/
theorem add_item_sequence_accumulates (inv : Inventory) (k name1 : String)
    (qty1 : Int) (price1 : ℚ) (calls : List (String × Int × ℚ))
    (hfirst : pyLower name1 = k)
    (hrest : ∀ c ∈ calls, pyLower c.1 = k)
    (habsent : lookup inv k = none) :
    lookup (addAll inv ((name1, qty1, price1) :: calls)) k
      = some ⟨name1, qty1 + sumQty calls, some price1⟩ := by
  have hstep : (add_item inv name1 qty1 price1).inv
      = setItem inv k ⟨name1, qty1, some price1⟩ := by
    simp [add_item, hfirst, habsent]
  have hlook : lookup (add_item inv name1 qty1 price1).inv k
      = some ⟨name1, qty1, some price1⟩ := by
    rw [hstep]
    exact lookup_setItem_self _ _ _
  have hfold : addAll inv ((name1, qty1, price1) :: calls)
      = addAll (add_item inv name1 qty1 price1).inv calls := by
    simp [addAll]
  rw [hfold, addAll_lookup_existing calls _ k _ hrest hlook]

/-- C1 witness: two adds of `Apple`/`APPLE` starting from an empty inventory
store key `apple` with quantity `5 + 3`, name `Apple`, price `2`. -/
theorem add_item_sequence_accumulates_witness :
    lookup (addAll [] [("Apple", 5, (2 : ℚ)), ("APPLE", 3, 9)]) "apple"
      = some ⟨"Apple", 5 + sumQty [("APPLE", 3, 9)], some 2⟩ :=
  add_item_sequence_accumulates [] "apple" "Apple" 5 2 [("APPLE", 3, 9)]
    (by decide) (by decide) (by decide)

/-- C2: whenever the lower-cased key is present and `qty` is at least the
current quantity, `remove_item` deletes the entry outright (however far `qty`
overshoots), leaving the key absent, and returns the complete-removal
message. -/
theorem remove_item_overshoot_deletes (inv : Inventory) (name : String) (qty : Int)
    (it : Item) (hnd : keysNodup inv)
    (hfound : lookup inv (pyLower name) = some it)
    (hq : it.quantity ≤ qty) :
    (remove_item inv name qty).inv = popKey inv (pyLower name) ∧
    lookup ((remove_item inv name qty).inv) (pyLower name) = none ∧
    (remove_item inv name qty).msg = removedCompletelyMsg name qty := by
  have h1 : remove_item inv name qty
      = { inv := popKey inv (pyLower name), msg := removedCompletelyMsg name qty,
          saved := true } := by
    simp [remove_item, hfound, hq]
  rw [h1]
  exact ⟨rfl, lookup_popKey_self inv _ hnd, rfl⟩

/-- C2 witness: removing 10 of an item stocked at 5 deletes the entry. -/
theorem remove_item_overshoot_deletes_witness :
    (remove_item [("apple", ⟨"Apple", 5, some 2⟩)] "Apple" 10).inv
        = popKey [("apple", ⟨"Apple", 5, some 2⟩)] (pyLower "Apple") ∧
    lookup ((remove_item [("apple", ⟨"Apple", 5, some 2⟩)] "Apple" 10).inv)
        (pyLower "Apple") = none ∧
    (remove_item [("apple", ⟨"Apple", 5, some 2⟩)] "Apple" 10).msg
        = removedCompletelyMsg "Apple" 10 :=
  remove_item_overshoot_deletes [("apple", ⟨"Apple", 5, some 2⟩)] "Apple" 10
    ⟨"Apple", 5, some 2⟩ (by decide) (by decide) (by decide)

/-- C6: removing a name whose lower-cased key is absent returns the
not-found message, leaves the mapping untouched, and performs no save. -/
theorem remove_item_absent_noop (inv : Inventory) (name : String) (qty : Int)
    (habsent : lookup inv (pyLower name) = none) :
    remove_item inv name qty
      = { inv := inv, msg := removeNotFoundMsg name, saved := false } := by
  simp [remove_item, habsent]

/-- C6 witness: removing `pear` from an apple-only inventory is a no-op. -/
theorem remove_item_absent_noop_witness :
    remove_item [("apple", ⟨"Apple", 5, some 2⟩)] "Pear" 3
      = { inv := [("apple", ⟨"Apple", 5, some 2⟩)],
          msg := removeNotFoundMsg "Pear", saved := false } :=
  remove_item_absent_noop [("apple", ⟨"Apple", 5, some 2⟩)] "Pear" 3 (by decide)

/-- C9: `list_items` returns the empty-inventory sentinel exactly on the
empty mapping; on a non-empty mapping it returns the newline-join of one
formatted line per entry (one line per distinct key, since dict keys are
unique), each line carrying that entry's name, quantity, and price.  It
takes the mapping and returns only a string: no mutation, no save. -/
theorem list_items_line_per_key (inv : Inventory) :
    (inv = [] → list_items inv = emptyInvMsg) ∧
    (inv ≠ [] →
      list_items inv = String.intercalate "\n" (inv.map fun kv => itemLine kv.2) ∧
      (inv.map fun kv => itemLine kv.2).length = inv.length ∧
      ∀ kv ∈ inv, itemLine kv.2 = kv.2.name ++ " — qty: " ++ toString kv.2.quantity
        ++ " — price: " ++ toString (priceOr0 kv.2)) := by
  constructor
  · intro h
    subst h
    rfl
  · intro h
    have hne : inv.isEmpty = false := by
      cases inv with
      | nil => exact absurd rfl h
      | cons a l => rfl
    exact ⟨by simp [list_items, hne], by simp, fun kv _ => rfl⟩

/-- C9 witness: the sentinel on `[]`, and a two-item inventory yielding the
two expected lines. -/
theorem list_items_line_per_key_witness :
    list_items [] = emptyInvMsg ∧
    list_items [("apple", ⟨"Apple", 5, some 2⟩), ("pear", ⟨"pear", 1, none⟩)]
      = String.intercalate "\n"
          ([("apple", ⟨"Apple", 5, some 2⟩), ("pear", ⟨"pear", 1, none⟩)].map
            fun kv => itemLine kv.2) ∧
    ([(("apple" : String)), (("pear" : String))].length = 2) :=
  ⟨(list_items_line_per_key []).1 rfl,
   ((list_items_line_per_key
      [("apple", ⟨"Apple", 5, some 2⟩), ("pear", ⟨"pear", 1, none⟩)]).2
      (by decide)).1,
   by decide⟩

/-- C10: an entry whose `price` field is missing is still formatted by both
`check_stock` and `list_items`, with the price reported as the default `0`
and name and quantity as stored. -/
theorem missing_price_reported_as_zero (inv : Inventory) (name : String) (it : Item)
    (hfound : lookup inv (pyLower name) = some it)
    (hnoprice : it.price = none) :
    check_stock inv name = stockMsg it.name it.quantity 0 ∧
    itemLine it = it.name ++ " — qty: " ++ toString it.quantity
      ++ " — price: " ++ toString (0 : ℚ) ∧
    list_items inv = String.intercalate "\n" (inv.map fun kv => itemLine kv.2) := by
  have hp : priceOr0 it = 0 := by simp [priceOr0, hnoprice]
  have hne : inv.isEmpty = false := by
    have h := lookup_ne_nil inv _ _ hfound
    cases inv with
    | nil => exact absurd rfl h
    | cons a l => rfl
  refine ⟨?_, ?_, ?_⟩
  · simp [check_stock, hfound, hp]
  · simp [itemLine, hp]
  · simp [list_items, hne]

/-- C10 witness: a price-less apple entry is reported with price `0` by
`check_stock` and formatted by `itemLine`. -/
theorem missing_price_reported_as_zero_witness :
    check_stock [("apple", ⟨"Apple", 5, none⟩)] "APPLE" = stockMsg "Apple" 5 0 ∧
    itemLine ⟨"Apple", 5, none⟩ = "Apple" ++ " — qty: " ++ toString (5 : Int)
      ++ " — price: " ++ toString (0 : ℚ) ∧
    list_items [("apple", ⟨"Apple", 5, none⟩)]
      = String.intercalate "\n"
          ([(("apple" : String), (⟨"Apple", 5, none⟩ : Item))].map fun kv => itemLine kv.2) := by
  have h := missing_price_reported_as_zero [("apple", ⟨"Apple", 5, none⟩)] "APPLE"
    ⟨"Apple", 5, none⟩ (by decide) rfl
  exact h

/-- C3 counterexample: `add_item` accepts a negative quantity with no
validation; starting from the empty inventory, which satisfies the
non-negativity invariant, one `add_item` call with `qty = -1` produces an
entry whose quantity is negative, so the invariant is not preserved by every
operation over all accepted integer arguments. -/
theorem add_item_negative_qty_breaks_invariant :
    nonnegInv ([] : Inventory) ∧ ¬ nonnegInv ((add_item [] "widget" (-1)).inv) := by
  decide

/-- C3 (amended): the non-negativity invariant is preserved by `remove_item`
for every integer quantity (an excess removal deletes the entry; a partial
removal only happens when `qty` is strictly below the stock), and by
`add_item` whenever the added quantity is non-negative; `check_stock` and
`list_items` return only strings and cannot mutate.  `add_item` with a
negative quantity can break the invariant. -/
theorem nonneg_invariant_preservation (inv : Inventory) (name : String)
    (qty : Int) (price : ℚ) (hinv : nonnegInv inv) :
    (0 ≤ qty → nonnegInv ((add_item inv name qty price).inv)) ∧
    nonnegInv ((remove_item inv name qty).inv) := by
  constructor
  · intro hq
    cases hl : lookup inv (pyLower name) with
    | none =>
        have hres : (add_item inv name qty price).inv
            = setItem inv (pyLower name) ⟨name, qty, some price⟩ := by
          simp [add_item, hl]
        rw [hres]
        intro kv hkv
        rcases mem_setItem _ _ _ _ hkv with h | h
        · rw [h]
          exact hq
        · exact hinv kv h
    | some it =>
        have hres : (add_item inv name qty price).inv
            = setItem inv (pyLower name) { it with quantity := it.quantity + qty } := by
          simp [add_item, hl]
        rw [hres]
        intro kv hkv
        rcases mem_setItem _ _ _ _ hkv with h | h
        · have h0 : 0 ≤ it.quantity := hinv _ (lookup_mem _ _ _ hl)
          rw [h]
          show 0 ≤ it.quantity + qty
          omega
        · exact hinv kv h
  · cases hl : lookup inv (pyLower name) with
    | none =>
        have hres : (remove_item inv name qty).inv = inv := by
          simp [remove_item, hl]
        rw [hres]
        exact hinv
    | some it =>
        by_cases h2 : it.quantity ≤ qty
        · have hres : (remove_item inv name qty).inv = popKey inv (pyLower name) := by
            simp [remove_item, hl, h2]
          rw [hres]
          intro kv hkv
          exact hinv kv (mem_popKey _ _ _ hkv)
        · have hres : (remove_item inv name qty).inv
              = setItem inv (pyLower name) { it with quantity := it.quantity - qty } := by
            simp [remove_item, hl, h2]
          rw [hres]
          intro kv hkv
          rcases mem_setItem _ _ _ _ hkv with h | h
          · rw [h]
            show 0 ≤ it.quantity - qty
            omega
          · exact hinv kv h

/-- C3 amended witness: a non-negative add and a removal on a concrete
well-formed inventory keep every quantity non-negative. -/
theorem nonneg_invariant_preservation_witness :
    nonnegInv ((add_item [("apple", ⟨"Apple", 5, some 2⟩)] "Apple" 3 1).inv) ∧
    nonnegInv ((remove_item [("apple", ⟨"Apple", 5, some 2⟩)] "Apple" 3).inv) :=
  ⟨(nonneg_invariant_preservation [("apple", ⟨"Apple", 5, some 2⟩)] "Apple" 3 1
      (by decide)).1 (by decide),
   (nonneg_invariant_preservation [("apple", ⟨"Apple", 5, some 2⟩)] "Apple" 3 1
      (by decide)).2⟩

/-- C4 counterexample: construct the SDK session over an empty store, then
let a per-request local fallback (line 109) add 5 apples — this saves to the
Store but not to the closures' mapping.  The next `sdk_check_stock`
invocation answers from the construction-time mapping and differs from the
fresh-loading adapter the spec describes: the adapters do not load fresh at
each invocation. -/
theorem sdk_adapter_uses_stale_mapping :
    sdk_check_stock ((sdkRuntimeFallback (mkSdkWorld []) "add 5 apples").1) "apples"
      ≠ sdk_check_stock_freshSpec
          ((sdkRuntimeFallback (mkSdkWorld []) "add 5 apples").1) "apples" := by
  decide

/-- C4 (amended): every tool adapter operates on the single mapping loaded
once at agent construction (line 68) and shared across invocations: adapter
results are independent of the current Store contents, and a change made
through one adapter is visible to the next invocation. -/
theorem sdk_adapters_share_construction_mapping (m f f2 : Inventory)
    (name : String) (qty : Int) (price : ℚ) :
    sdk_check_stock ⟨m, f⟩ name = sdk_check_stock ⟨m, f2⟩ name ∧
    sdk_list_items ⟨m, f⟩ = sdk_list_items ⟨m, f2⟩ ∧
    (sdk_add_item ⟨m, f⟩ name qty price).2 = (sdk_add_item ⟨m, f2⟩ name qty price).2 ∧
    (sdk_remove_item ⟨m, f⟩ name qty).2 = (sdk_remove_item ⟨m, f2⟩ name qty).2 ∧
    (mkSdkWorld f).mem = f ∧
    (lookup m (pyLower name) = none →
      sdk_check_stock (sdk_add_item ⟨m, f⟩ name qty price).1 name
        = stockMsg name qty price) := by
  refine ⟨rfl, rfl, rfl, rfl, rfl, ?_⟩
  intro habsent
  have hres : (add_item m name qty price).inv
      = setItem m (pyLower name) ⟨name, qty, some price⟩ := by
    simp [add_item, habsent]
  simp [sdk_check_stock, sdk_add_item, check_stock, hres, lookup_setItem_self, priceOr0]

/-- C4 amended witness: adapter output ignores a changed Store, and an add
through one adapter is seen by the next `sdk_check_stock`. -/
theorem sdk_adapters_share_construction_mapping_witness :
    sdk_check_stock ⟨[], []⟩ "apples"
      = sdk_check_stock ⟨[], [("x", ⟨"x", 1, none⟩)]⟩ "apples" ∧
    sdk_check_stock (sdk_add_item ⟨[], []⟩ "apples" 5 2).1 "apples"
      = stockMsg "apples" 5 2 := by
  have h := sdk_adapters_share_construction_mapping [] [] [("x", ⟨"x", 1, none⟩)]
    "apples" 5 2
  exact ⟨h.1, h.2.2.2.2.2 (by decide)⟩

/-- C5 counterexample: a line of three spaces is a non-empty input line, yet
`split()` yields no tokens and `parts[0]` raises an `IndexError` (modelled
as `none`) instead of returning the unrecognized-command message. -/
theorem whitespace_only_line_faults :
    ("   " : String) ≠ "" ∧ handle_local_text_command [] "   " = none := by
  decide

/-- C5 (amended): for every input line that yields at least one token, if
the first token is not a recognized verb or the token count is insufficient
for the matched verb, the interpreter returns the unrecognized-command
message, leaves the mapping untouched, and performs no save; a line with no
tokens (whitespace-only) instead raises `IndexError` at `parts[0]`. -/
theorem unrecognized_command_is_noop (inv : Inventory) (text : String)
    (p0 : String) (rest : List String)
    (h : tokens (pyLower text) = p0 :: rest)
    (h1 : ¬ ((p0 = "add" ∨ p0 = "insert") ∧ 2 ≤ rest.length))
    (h2 : ¬ ((p0 = "remove" ∨ p0 = "delete") ∧ 2 ≤ rest.length))
    (h3 : ¬ ((p0 = "check" ∨ p0 = "stock") ∧ 1 ≤ rest.length))
    (h4 : ¬ (p0 = "list" ∨ p0 = "show")) :
    handle_local_text_command inv text
      = some { inv := inv, msg := unrecognizedMsg, saved := false } := by
  simp only [handle_local_text_command, h]
  rw [if_neg h1, if_neg h2, if_neg h3, if_neg h4]

/-- C5 amended witness: `hello there` is reported as unrecognized with no
mutation and no save. -/
theorem unrecognized_command_is_noop_witness :
    handle_local_text_command [("apple", ⟨"Apple", 5, some 2⟩)] "hello there"
      = some { inv := [("apple", ⟨"Apple", 5, some 2⟩)], msg := unrecognizedMsg,
               saved := false } :=
  unrecognized_command_is_noop [("apple", ⟨"Apple", 5, some 2⟩)] "hello there"
    "hello" ["there"] (by decide) (by decide) (by decide) (by decide) (by decide)

/-- C7: an add/insert or remove/delete line with at least three tokens whose
quantity token fails integer parsing reports the respective parse-error
message, leaves the mapping untouched, invokes no operation, and saves
nothing. -/
theorem bad_qty_token_reports_parse_error (inv : Inventory) (text : String)
    (p0 q n : String) (ns : List String)
    (h : tokens (pyLower text) = p0 :: q :: n :: ns)
    (hverb : p0 = "add" ∨ p0 = "insert" ∨ p0 = "remove" ∨ p0 = "delete")
    (hbad : pyParseInt q = none) :
    handle_local_text_command inv text
      = some { inv := inv,
               msg := if p0 = "add" ∨ p0 = "insert" then cantParseAddMsg
                      else cantParseRemoveMsg,
               saved := false } := by
  simp only [handle_local_text_command, h]
  rcases hverb with hv | hv | hv | hv
  · subst hv
    rw [if_pos ⟨Or.inl rfl, Nat.le_add_left 2 ns.length⟩]
    simp [List.headD_cons, hbad]
  · subst hv
    rw [if_pos ⟨Or.inr rfl, Nat.le_add_left 2 ns.length⟩]
    simp [List.headD_cons, hbad]
  · subst hv
    rw [if_neg (by rintro ⟨hx | hx, -⟩ <;> exact absurd hx (by decide)),
        if_pos ⟨Or.inl rfl, Nat.le_add_left 2 ns.length⟩]
    simp [List.headD_cons, hbad]
  · subst hv
    rw [if_neg (by rintro ⟨hx | hx, -⟩ <;> exact absurd hx (by decide)),
        if_pos ⟨Or.inr rfl, Nat.le_add_left 2 ns.length⟩]
    simp [List.headD_cons, hbad]

/-- C7 witness: `remove abc apples` yields the parse-error message and the
mapping is unchanged. -/
theorem bad_qty_token_reports_parse_error_witness :
    handle_local_text_command [("apples", ⟨"apples", 5, some 0⟩)] "remove abc apples"
      = some { inv := [("apples", ⟨"apples", 5, some 0⟩)],
               msg := cantParseRemoveMsg, saved := false } := by
  have h := bad_qty_token_reports_parse_error [("apples", ⟨"apples", 5, some 0⟩)]
    "remove abc apples" "remove" "abc" "apples" []
    (by decide) (Or.inr (Or.inr (Or.inl rfl))) (by decide)
  rw [if_neg (by decide)] at h
  exact h

/-- C8 counterexample: with the SDK import succeeding and the `Agent(...)`
constructor (lines 89–93, outside any `try`) failing, startup ends in an
escaping exception — it does not fall back to local interpretation, so the
failure is fatal, contrary to the claim. -/
theorem agent_ctor_failure_is_fatal :
    run_with_sdk_startup SdkImport.ok AgentCtor.fail
        = Except.error "Agent construction raised: unhandled" ∧
    run_with_sdk_startup SdkImport.ok AgentCtor.fail
        ≠ Except.ok SessionMode.localFallback := by
  exact ⟨rfl, fun hc => Except.noConfusion hc⟩

/-- C8 (amended): only the import is guarded by `try/except`: an import
failure falls back permanently to local interpretation and is never fatal,
but a failure of the `Agent(...)` constructor itself escapes `run_with_sdk`
unhandled and aborts the session. -/
theorem startup_fallback_only_for_import_failure (ctor : AgentCtor) :
    run_with_sdk_startup SdkImport.fail ctor = Except.ok SessionMode.localFallback ∧
    run_with_sdk_startup SdkImport.ok AgentCtor.ok = Except.ok SessionMode.sdkActive ∧
    run_with_sdk_startup SdkImport.ok AgentCtor.fail
      = Except.error "Agent construction raised: unhandled" :=
  ⟨rfl, rfl, rfl⟩

